import Mathlib

/-!
Verification development for the ofb-scraper repository.

The repository scrapes per-player football match statistics from rendered
HTML, persists them into an SQLite database (tables `players` and `games`),
and aggregates stored rows into two charts.  This file gives a shallow
embedding of the extraction routine (`scrape_from_page` in
`src/scrape_two_step.py`), of the persistence layer (`save_games_to_db`,
present in both `src/scrape_two_step.py` and
`src/scrape_two_step_clickevent-working.py`), and of the two aggregation
queries of each variant (`generate_minutes_chart`, `generate_goals_chart`),
together with theorems about them.

Python strings are modelled as Lean `String`s, with the string operations
the source uses (`split`, `strip`, `replace`, `in`, `isdigit`, `int`,
`str`) re-implemented over `List Char` by structural (fuel-based)
recursion so that every definition evaluates by kernel reduction.
The SQLite `games` table is modelled as a `List GameRow`; the
`AUTOINCREMENT` surrogate `id` column is elided (the code only ever uses
it as an existence witness in `SELECT id ... fetchone`).  `CURRENT_TIMESTAMP`
is modelled by an explicit `now : String` parameter, and the timezone of
the parsing environment (used by `datetime.strptime(...).timestamp()` and
`datetime.fromtimestamp`) by an explicit UTC-offset parameter `tz`
(seconds east of UTC).
-/

namespace OfbScraper

/-! ### Characters, decimal digits, Python `int()` / `str.isdigit` -/

/-- Decimal digit character for a value below ten (used to model Python's
decimal rendering and `strftime` zero padding). -/
def digCh : Nat → Char
  | 0 => '0' | 1 => '1' | 2 => '2' | 3 => '3' | 4 => '4'
  | 5 => '5' | 6 => '6' | 7 => '7' | 8 => '8' | 9 => '9'
  | _ => '*'

/-- Numeric value of a decimal digit character. -/
def dval (c : Char) : Nat := c.toNat - 48

/-- Base-ten value of a list of digit characters, exactly as Python's
`int()` computes it on a digit-only string. -/
def decValue (cs : List Char) : Nat := cs.foldl (fun a c => 10 * a + dval c) 0

/-- Model of Python `str.isdigit` over the ASCII repertoire the scraped
pages use: true iff the string is nonempty and every character is one of
`0`..`9`. -/
def pyIsdigit (cs : List Char) : Bool := !cs.isEmpty && cs.all Char.isDigit

/-- Model of the pervasive `int(text) if text.isdigit() else 0` idiom of
the source (extractor columns 2, 5, 6 and the store layer's
minutes/goals conversion). -/
def parseIntOr0 (s : String) : Int :=
  if pyIsdigit s.data then (decValue s.data : Int) else 0

/-- Fuel-based decimal rendering of a natural number (the fuel argument
only ensures structural recursion; `n` itself is always enough fuel). -/
def natDecCharsAux : Nat → Nat → List Char
  | 0, n => [digCh n]
  | fuel + 1, n => if n < 10 then [digCh n] else natDecCharsAux fuel (n / 10) ++ [digCh (n % 10)]

/-- Decimal digit characters of a natural number, as Python `str` renders it. -/
def natDecChars (n : Nat) : List Char := natDecCharsAux n n

/-- A Python scalar, as stored in a scraped game dictionary: the HTML
extractor writes `int` values for round/minutes/goals, while the JSON
path of the clickevent variant may deliver strings. -/
inductive PyVal where
  | int (i : Int)
  | str (s : String)
deriving DecidableEq, Repr

/-- Model of Python `str(v)` on the scalars above. -/
def pyStrOf : PyVal → String
  | .int i => if i < 0 then String.mk ('-' :: natDecChars i.natAbs) else String.mk (natDecChars i.natAbs)
  | .str s => s

/-- Model of `int(v) if str(v).isdigit() else 0`, the store layer's
conversion for the minutes and goals fields (`save_games_to_db`). -/
def pyToInt (v : PyVal) : Int := parseIntOr0 (pyStrOf v)

/-! ### Python string operations used by the source, over `List Char` -/

/-- Boolean prefix test on character lists. -/
def leadsWith : List Char → List Char → Bool
  | [], _ => true
  | _ :: _, [] => false
  | a :: as, b :: bs => a == b && leadsWith as bs

/-- Model of Python's substring containment `pat in s`. -/
def pyContains (pat : List Char) : List Char → Bool
  | [] => pat.isEmpty
  | c :: rest => leadsWith pat (c :: rest) || pyContains pat rest

/-- Fuel-based worker for `pyReplaceDel` (delete every occurrence of a
nonempty pattern, scanning left to right, as Python
`s.replace(pat, '')` does). -/
def pyReplaceDelAux (pat : List Char) : Nat → List Char → List Char
  | _, [] => []
  | 0, cs => cs
  | fuel + 1, c :: rest =>
    if leadsWith pat (c :: rest) && !pat.isEmpty then
      pyReplaceDelAux pat fuel (rest.drop (pat.length - 1))
    else
      c :: pyReplaceDelAux pat fuel rest

/-- Model of Python `s.replace(pat, '')` for a nonempty pattern. -/
def pyReplaceDel (pat cs : List Char) : List Char := pyReplaceDelAux pat (cs.length + 1) cs

/-- Model of Python `s.strip()` (over the whitespace characters that can
occur in the scraped text). -/
def pyStrip (cs : List Char) : List Char :=
  ((cs.dropWhile Char.isWhitespace).reverse.dropWhile Char.isWhitespace).reverse

/-- Fuel-based worker for `pySplit`. -/
def pySplitAux (pat : List Char) : Nat → List Char → List Char → List (List Char)
  | _, acc, [] => [acc.reverse]
  | 0, acc, cs => [acc.reverse ++ cs]
  | fuel + 1, acc, c :: rest =>
    if leadsWith pat (c :: rest) && !pat.isEmpty then
      acc.reverse :: pySplitAux pat fuel [] (rest.drop (pat.length - 1))
    else
      pySplitAux pat fuel (c :: acc) rest

/-- Model of Python `s.split(pat)` for a nonempty pattern: splits on every
non-overlapping occurrence, left to right, keeping empty pieces. -/
def pySplit (pat cs : List Char) : List (List Char) := pySplitAux pat (cs.length + 1) [] cs

/-- Bytewise (codepoint) lexicographic order on character lists; this is
how SQLite's default BINARY collation compares the ASCII date strings the
code stores. -/
def listLeB : List Char → List Char → Bool
  | [], _ => true
  | _ :: _, [] => false
  | a :: as, b :: bs =>
    if a.toNat < b.toNat then true
    else if b.toNat < a.toNat then false
    else listLeB as bs

/-! ### Calendar arithmetic

Models the calendar conversions performed by `datetime.strptime(...).timestamp()`
(civil date to epoch) and `datetime.fromtimestamp` (epoch to civil date),
with the environment's UTC offset passed explicitly. -/

/-- Gregorian leap-year test. -/
def isLeap (y : Nat) : Bool := (y % 4 == 0 && y % 100 != 0) || y % 400 == 0

/-- Number of days in a month (`datetime.strptime` validates the day of
month against this). -/
def daysInMonth (y m : Nat) : Nat :=
  if m == 2 then (if isLeap y then 29 else 28)
  else if m == 4 || m == 6 || m == 9 || m == 11 then 30
  else 31

/-- Days from 1970-01-01 to the civil date `y-m-d` (proleptic Gregorian,
`y ≥ 1`); the standard era-based days-from-civil computation. -/
def daysFromCivil (y m d : Nat) : Int :=
  let y' := if m ≤ 2 then y - 1 else y
  let era := y' / 400
  let yoe := y' % 400
  let mp := if m ≤ 2 then m + 9 else m - 3
  let doy := (153 * mp + 2) / 5 + d - 1
  let doe := yoe * 365 + (yoe / 4 - yoe / 100) + doy
  (era : Int) * 146097 + (doe : Int) - 719468

/-- Civil date `(year, month, day)` of the day `z` days after 1970-01-01
(valid for dates in year 1 or later); inverse of `daysFromCivil`. -/
def civilFromDays (z : Int) : Nat × Nat × Nat :=
  let zn := (z + 719468).toNat
  let era := zn / 146097
  let doe := zn % 146097
  let yoe := (doe - doe / 1460 + doe / 36524 - doe / 146096) / 365
  let y := yoe + era * 400
  let doy := doe - (365 * yoe + (yoe / 4 - yoe / 100))
  let mp := (5 * doy + 2) / 153
  let d := doy - (153 * mp + 2) / 5 + 1
  let m := if mp < 10 then mp + 3 else mp - 9
  (if m ≤ 2 then y + 1 else y, m, d)

/-- Two zero-padded decimal digits (as `strftime` `%m`, `%d`, `%H`, `%M`, `%S`). -/
def pad2 (n : Nat) : List Char := [digCh (n / 10 % 10), digCh (n % 10)]

/-- Four zero-padded decimal digits (as `strftime` `%Y` for years below 10000). -/
def pad4 (n : Nat) : List Char :=
  [digCh (n / 1000 % 10), digCh (n / 100 % 10), digCh (n / 10 % 10), digCh (n % 10)]

/-- Model of
`datetime.fromtimestamp(ms / 1000).strftime('%Y-%m-%d %H:%M:%S')` in
`save_games_to_db`: converts a millisecond epoch timestamp to the local
civil time string stored in the `game_date` column, for an environment
whose UTC offset is `tz` seconds. -/
def fmtLocal (tz ms : Int) : String :=
  let secs := Int.fdiv ms 1000
  let loc := secs + tz
  let day := Int.fdiv loc 86400
  let sod := (loc - 86400 * day).toNat
  let c := civilFromDays day
  String.mk (pad4 c.1 ++ '-' :: pad2 c.2.1 ++ '-' :: pad2 c.2.2 ++
    ' ' :: pad2 (sod / 3600) ++ ':' :: pad2 (sod % 3600 / 60) ++ ':' :: pad2 (sod % 60))

/-! ### Model of `datetime.strptime(s, '%d.%m.%Y, %H:%M')` -/

/-- Greedily take one or two decimal digits (as the `%d`, `%m`, `%H`, `%M`
directives match). -/
def takeD2 : List Char → Option (Nat × List Char)
  | [] => none
  | [a] => if a.isDigit then some (dval a, []) else none
  | a :: b :: rest =>
    if a.isDigit then
      (if b.isDigit then some (10 * dval a + dval b, rest) else some (dval a, b :: rest))
    else none

/-- Take exactly four decimal digits (as the `%Y` directive matches). -/
def takeD4 : List Char → Option (Nat × List Char)
  | a :: b :: c :: d :: rest =>
    if a.isDigit && b.isDigit && c.isDigit && d.isDigit then
      some (1000 * dval a + 100 * dval b + 10 * dval c + dval d, rest)
    else none
  | _ => none

/-- Match one literal character of the format string. -/
def expectCh (c : Char) : List Char → Option (List Char)
  | [] => none
  | a :: rest => if a == c then some rest else none

/-- Model of `datetime.strptime(s, '%d.%m.%Y, %H:%M')`: on success returns
`(day, month, year, hour, minute)`; on any mismatch or out-of-range
component (which raises `ValueError` in Python) returns `none`. -/
def strptimeDMYHM (cs : List Char) : Option (Nat × Nat × Nat × Nat × Nat) :=
  match takeD2 cs with
  | none => none
  | some (d, cs) =>
    match expectCh '.' cs with
    | none => none
    | some cs =>
      match takeD2 cs with
      | none => none
      | some (m, cs) =>
        match expectCh '.' cs with
        | none => none
        | some cs =>
          match takeD4 cs with
          | none => none
          | some (y, cs) =>
            match expectCh ',' cs with
            | none => none
            | some cs =>
              match expectCh ' ' cs with
              | none => none
              | some cs =>
                match takeD2 cs with
                | none => none
                | some (h, cs) =>
                  match expectCh ':' cs with
                  | none => none
                  | some cs =>
                    match takeD2 cs with
                    | none => none
                    | some (mi, cs) =>
                      if cs.isEmpty && decide (1 ≤ y) && decide (1 ≤ m) && decide (m ≤ 12) &&
                          decide (1 ≤ d) && decide (d ≤ daysInMonth y m) &&
                          decide (h ≤ 23) && decide (mi ≤ 59) then
                        some (d, m, y, h, mi)
                      else
                        none

/-- The fixed locale suffix `" Uhr"` stripped from the raw date text. -/
def uhrPat : List Char := [' ', 'U', 'h', 'r']

/-- Model of the date post-processing step of `scrape_from_page`
(lines 497–511): if the raw text is nonempty and contains a dot, strip
every `" Uhr"` occurrence, strip whitespace, parse with
`strptime('%d.%m.%Y, %H:%M')` and convert the resulting local time to a
millisecond epoch timestamp (`int(date_obj.timestamp() * 1000)`) for an
environment at UTC offset `tz` seconds; on any parse failure, or when the
precheck fails, the timestamp is 0. -/
def anstossOfDatum (tz : Int) (datum : String) : Int :=
  let cs := datum.data
  if !cs.isEmpty && cs.contains '.' then
    match strptimeDMYHM (pyStrip (pyReplaceDel uhrPat cs)) with
    | some (d, m, y, h, mi) =>
      1000 * (86400 * daysFromCivil y m d + 3600 * (h : Int) + 60 * (mi : Int) - tz)
    | none => 0
  else 0

/-! ### The Record Extractor (`scrape_from_page`, lines 412–524)

The BeautifulSoup query `soup.find_all('div', class_=re.compile(r'^c\d+'))`
yields a document-ordered sequence of fragments; each fragment is modelled
by its class list, the text of its `span.m_g_text_1` child (empty when the
span is missing), and its first link (`div.find('a')`), if any. -/

/-- The link inside a column-3 fragment: `title` and `href` attributes
(`link.get('title', '')` / `link.get('href', '')` default to empty). -/
structure LinkInfo where
  title : String
  href : String
deriving DecidableEq, Repr

/-- One markup fragment matched by the extractor's query. -/
structure Frag where
  classes : List String
  text : String
  link : Option LinkInfo
deriving DecidableEq, Repr

/-- A scraped game dictionary. Every field is optional, mirroring the
Python dict to which the extractor adds keys one fragment at a time
(`spielortBezeichnung` is never set by the HTML extractor but is read by
the store layer, so the JSON path of the clickevent variant may supply it). -/
structure GameRec where
  datum : Option String := none
  bewerb : Option String := none
  runde : Option Int := none
  heimMannschaft : Option String := none
  gastMannschaft : Option String := none
  actionLink : Option String := none
  ergebnis : Option String := none
  einsatzMinuten : Option PyVal := none
  tore : Option PyVal := none
  spielortBezeichnung : Option String := none
  ageGroup : Option String := none
  anstoss : Option Int := none
deriving DecidableEq, Repr

/-- The empty dict `current_game = {}`. -/
def emptyRec : GameRec := {}

/-- Python dict truthiness: the buffer is falsy iff it holds no key. -/
def GameRec.isEmptyRec (g : GameRec) : Bool :=
  g.datum.isNone && g.bewerb.isNone && g.runde.isNone && g.heimMannschaft.isNone &&
  g.gastMannschaft.isNone && g.actionLink.isNone && g.ergebnis.isNone &&
  g.einsatzMinuten.isNone && g.tore.isNone && g.spielortBezeichnung.isNone &&
  g.ageGroup.isNone && g.anstoss.isNone

/-- Column tag of one class string: `cls.startswith('c') and len(cls) == 2
and cls[1].isdigit()`. -/
def colTag (c : String) : Option Nat :=
  match c.data with
  | ['c', d] => if d.isDigit then some (dval d) else none
  | _ => none

/-- First matching column tag among a fragment's classes (the source's
`for cls in classes: ... break`). -/
def colOf (classes : List String) : Option Nat := classes.findSome? colTag

/-- The separator `' - '` of the column-3 title attribute. -/
def sepPat : List Char := [' ', '-', ' ']

/-- One iteration of the extractor's fragment loop: state is the list of
games emitted so far plus the `current_game` buffer.  Fragments whose
column tag is absent are skipped (`continue`); tags 7–9 match the class
pattern but no branch, so they leave the state unchanged. -/
def stepFrag (st : List GameRec × GameRec) (f : Frag) : List GameRec × GameRec :=
  match colOf f.classes with
  | some 0 =>
    ((if st.2.isEmptyRec then st.1 else st.1 ++ [st.2]), { emptyRec with datum := some f.text })
  | some 1 => (st.1, { st.2 with bewerb := some f.text })
  | some 2 => (st.1, { st.2 with runde := some (parseIntOr0 f.text) })
  | some 3 =>
    match f.link with
    | some l =>
      let cur :=
        if pyContains sepPat l.title.data then
          let teams := pySplit sepPat l.title.data
          { st.2 with
            heimMannschaft := some (String.mk (pyStrip (teams.getD 0 [])))
            gastMannschaft := some (String.mk (pyStrip (teams.getD 1 []))) }
        else st.2
      (st.1, { cur with actionLink := some l.href })
    | none => (st.1, { st.2 with heimMannschaft := some f.text, gastMannschaft := some "" })
  | some 4 => (st.1, { st.2 with ergebnis := some f.text })
  | some 5 => (st.1, { st.2 with einsatzMinuten := some (PyVal.int (parseIntOr0 f.text)) })
  | some 6 => (st.1, { st.2 with tore := some (PyVal.int (parseIntOr0 f.text)) })
  | some _ => st
  | none => st

/-- The trailing flush: the last buffered record is kept only when the
buffer is truthy and carries a `datum` key (lines 481–483). -/
def tailFlush (cur : GameRec) : List GameRec :=
  if !cur.isEmptyRec && cur.datum.isSome then [cur] else []

/-- The raw game list produced by the fragment loop plus the trailing flush. -/
def rawGames (frags : List Frag) : List GameRec :=
  (frags.foldl stepFrag ([], emptyRec)).1 ++ tailFlush (frags.foldl stepFrag ([], emptyRec)).2

/-- Model of `re.search(r'U\d+', s)`: the first occurrence of `U` followed
by at least one digit, matched greedily. -/
def ageGroupScan : List Char → Option (List Char)
  | [] => none
  | c :: rest =>
    if c == 'U' && (match rest with | d :: _ => d.isDigit | [] => false) then
      some (c :: rest.takeWhile Char.isDigit)
    else ageGroupScan rest

/-- Uppercasing as applied by `bewerb.upper()` (ASCII letters suffice for
the `U` + digits pattern the search looks for). -/
def upperStr (s : String) : String := String.mk (s.data.map Char.toUpper)

/-- Age-group tag derived from the competition name (lines 491–495):
the matched text of `re.search(r'U\d+', bewerb.upper())`, or empty. -/
def ageGroupOf (bewerb : String) : String :=
  match ageGroupScan (upperStr bewerb).data with
  | some cs => String.mk cs
  | none => ""

/-- Per-record post-processing (lines 486–511): always sets the
`ageGroup` and `anstoss` keys of the dict, in place. -/
def postProcessGame (tz : Int) (g : GameRec) : GameRec :=
  { g with
    ageGroup := some (ageGroupOf (g.bewerb.getD ""))
    anstoss := some (anstossOfDatum tz (g.datum.getD "")) }

/-- The full extraction: fragment scan, trailing flush, post-processing. -/
def extractGames (tz : Int) (frags : List Frag) : List GameRec :=
  (rawGames frags).map (postProcessGame tz)

/-! ### The store layer (`save_games_to_db`, `save_player_to_db`)

The `games` table is a row list; the `AUTOINCREMENT` `id` column is
elided (it is only used as an existence witness).  Field names follow the
column names of the schema in `init_database`. -/

/-- One row of the `players` table. -/
structure PlayerRow where
  player_id : Int
  player_name : String
  team : String
  season_year : Int
  last_updated : String
deriving DecidableEq, Repr

/-- One row of the `games` table (the variant of `scrape_two_step.py`,
which includes the `age_group` column; the clickevent variant's table is
identical minus that column). -/
structure GameRow where
  player_id : Int
  game_date : Option String
  competition : String
  age_group : String
  round : Int
  home_team : String
  away_team : String
  result : String
  minutes_played : Int
  goals : Int
  location : String
  match_link : String
  game_timestamp : Int
  last_updated : String
deriving DecidableEq, Repr

/-- The database state: the two tables. -/
structure DBState where
  players : List PlayerRow
  games : List GameRow
deriving DecidableEq, Repr

/-- Model of the existence probe
`SELECT id FROM games WHERE player_id = ? AND game_timestamp = ?` +
`fetchone()`. -/
def keyExists (p ts : Int) (t : List GameRow) : Bool :=
  t.any fun r => r.player_id == p && r.game_timestamp == ts

/-- The row inserted for a fresh business key: every column from the
record's dict with the source's `.get` defaults, `game_date` derived from
the timestamp (`None` when the timestamp is falsy), minutes/goals through
the digit-or-zero conversion, `last_updated` from `CURRENT_TIMESTAMP`. -/
def insRow (tz : Int) (now : String) (p : Int) (g : GameRec) : GameRow :=
  let ts := g.anstoss.getD 0
  { player_id := p
    game_date := if ts == 0 then none else some (fmtLocal tz ts)
    competition := g.bewerb.getD ""
    age_group := g.ageGroup.getD ""
    round := g.runde.getD 0
    home_team := g.heimMannschaft.getD ""
    away_team := g.gastMannschaft.getD ""
    result := g.ergebnis.getD ""
    minutes_played := pyToInt (g.einsatzMinuten.getD (PyVal.str "0"))
    goals := pyToInt (g.tore.getD (PyVal.str "0"))
    location := g.spielortBezeichnung.getD ""
    match_link := g.actionLink.getD ""
    game_timestamp := ts
    last_updated := now }

/-- The `UPDATE games SET ...` applied to an existing row: overwrites all
non-key columns except `game_date` (which the UPDATE statement does not
mention) and bumps `last_updated`. -/
def updRow (now : String) (g : GameRec) (r : GameRow) : GameRow :=
  { r with
    competition := g.bewerb.getD ""
    age_group := g.ageGroup.getD ""
    round := g.runde.getD 0
    home_team := g.heimMannschaft.getD ""
    away_team := g.gastMannschaft.getD ""
    result := g.ergebnis.getD ""
    minutes_played := pyToInt (g.einsatzMinuten.getD (PyVal.str "0"))
    goals := pyToInt (g.tore.getD (PyVal.str "0"))
    location := g.spielortBezeichnung.getD ""
    match_link := g.actionLink.getD ""
    last_updated := now }

/-- The `UPDATE ... WHERE player_id = ? AND game_timestamp = ?` over the
whole table. -/
def updTable (now : String) (p : Int) (g : GameRec) (t : List GameRow) : List GameRow :=
  t.map fun r =>
    if r.player_id == p && r.game_timestamp == g.anstoss.getD 0 then updRow now g r else r

/-- The record loop of `save_games_to_db`: threads the table and the
`new_games` / `updated_games` counters through the records in order. -/
def saveLoop (tz : Int) (now : String) (p : Int) :
    List GameRec → List GameRow → Nat → Nat → List GameRow × Nat × Nat
  | [], t, n, u => (t, n, u)
  | g :: rest, t, n, u =>
    let ts := g.anstoss.getD 0
    if keyExists p ts t then
      saveLoop tz now p rest (updTable now p g t) n (u + 1)
    else
      saveLoop tz now p rest (t ++ [insRow tz now p g]) (n + 1) u

/-- Model of `save_games_to_db(player_id, games_data)`: returns the new
database state together with the `(new_games, updated_games)` counts.
The function only touches the `games` table. -/
def saveGamesToDb (tz : Int) (now : String) (p : Int) (recs : List GameRec) (db : DBState) :
    DBState × Nat × Nat :=
  let r := saveLoop tz now p recs db.games 0 0
  ({ db with games := r.1 }, r.2.1, r.2.2)

/-! ### The report layer (`generate_minutes_chart`, `generate_goals_chart`)

Both variants run an aggregation query over `players LEFT JOIN games` and
feed `(player_name, total)` pairs to the plotting code.  The queries
differ between the two source files:

* `scrape_two_step.py` filters with
  `WHERE g.game_date BETWEEN '2025-08-29' AND '2026-06-08'` (both charts)
  and its goals query additionally has `HAVING SUM(g.goals) > 0`;
  the `WHERE` clause on the left-joined column discards every null-extended
  row, so only players with at least one in-window game form a group.
* `scrape_two_step_clickevent-working.py` has no `WHERE` and no `HAVING`:
  every player forms a group, and a player with no games gets a `NULL`
  sum, which the chart code renders as 0 (`row[1] if row[1] else 0`).

`ORDER BY` is modelled by a stable insertion sort with the corresponding
comparison. -/

/-- SQL `x BETWEEN lo AND hi` on the `game_date` TEXT column: `NULL`
compares to `NULL`, which the `WHERE` clause treats as false. -/
def dateBetween (d : Option String) (lo hi : String) : Bool :=
  match d with
  | none => false
  | some s => listLeB lo.data s.data && listLeB s.data hi.data

/-- Lower bound of the hardcoded date window of `scrape_two_step.py`. -/
def windowLo : String := "2025-08-29"

/-- Upper bound of the hardcoded date window of `scrape_two_step.py`. -/
def windowHi : String := "2026-06-08"

/-- The join group of a player under the windowed queries of
`scrape_two_step.py`: that player's rows with `game_date` in the window. -/
def inWindowGames (games : List GameRow) (pid : Int) : List GameRow :=
  games.filter fun g => g.player_id == pid && dateBetween g.game_date windowLo windowHi

/-- SQL `SUM(g.minutes_played)` over a group of rows. -/
def sumMinutes (gs : List GameRow) : Int := (gs.map (·.minutes_played)).sum

/-- SQL `SUM(g.goals)` over a group of rows. -/
def sumGoals (gs : List GameRow) : Int := (gs.map (·.goals)).sum

/-- Stable insertion of one element under a boolean `le`. -/
def insertBy (le : α → α → Bool) (a : α) : List α → List α
  | [] => [a]
  | b :: bs => if le a b then a :: b :: bs else b :: insertBy le a bs

/-- Stable insertion sort, modelling SQL `ORDER BY`. -/
def sortBy (le : α → α → Bool) : List α → List α
  | [] => []
  | a :: as => insertBy le a (sortBy le as)

/-- SQLite ordering on possibly-`NULL` sums: `NULL` sorts below every
integer. -/
def optLeB : Option Int → Option Int → Bool
  | none, _ => true
  | some _, none => false
  | some x, some y => decide (x ≤ y)

/-- The chart code's `row[1] if row[1] else 0`: renders a `NULL` sum as 0. -/
def pyRender : Option Int → Int
  | none => 0
  | some v => v

/-- Result rows of the minutes query of `scrape_two_step.py` before
`ORDER BY`: one `(player_name, SUM(minutes_played))` group per player
having at least one in-window game. -/
def minutesRowsMain (players : List PlayerRow) (games : List GameRow) : List (String × Int) :=
  players.filterMap fun p =>
    let gs := inWindowGames games p.player_id
    if gs.isEmpty then none else some (p.player_name, sumMinutes gs)

/-- The minutes chart's input data in `scrape_two_step.py`:
query rows ordered by total descending (the chart's null-to-zero
rendering is the identity here, since every group is nonempty). -/
def minutesChartInputMain (players : List PlayerRow) (games : List GameRow) :
    List (String × Int) :=
  sortBy (fun a b => decide (b.2 ≤ a.2)) (minutesRowsMain players games)

/-- Result rows of the goals query of `scrape_two_step.py` before
`ORDER BY`: in-window groups filtered by `HAVING SUM(g.goals) > 0`. -/
def goalsRowsMain (players : List PlayerRow) (games : List GameRow) : List (String × Int) :=
  players.filterMap fun p =>
    let gs := inWindowGames games p.player_id
    if gs.isEmpty then none
    else if decide (0 < sumGoals gs) then some (p.player_name, sumGoals gs) else none

/-- The goals chart's input data in `scrape_two_step.py`: filtered rows
ordered by total descending. -/
def goalsChartInputMain (players : List PlayerRow) (games : List GameRow) :
    List (String × Int) :=
  sortBy (fun a b => decide (b.2 ≤ a.2)) (goalsRowsMain players games)

/-- Result rows of the minutes query of the clickevent variant: no
`WHERE`, every player forms a group, and a player with no games has sum
`NULL` (`SUM` over the single null-extended join row). -/
def minutesRowsClick (players : List PlayerRow) (games : List GameRow) :
    List (String × Option Int) :=
  players.map fun p =>
    let gs := games.filter fun g => g.player_id == p.player_id
    (p.player_name, if gs.isEmpty then none else some (sumMinutes gs))

/-- The minutes chart's input data in the clickevent variant: rows ordered
by total descending (`NULL` last) and rendered null-to-zero. -/
def minutesChartInputClick (players : List PlayerRow) (games : List GameRow) :
    List (String × Int) :=
  (sortBy (fun a b => optLeB b.2 a.2) (minutesRowsClick players games)).map fun r =>
    (r.1, pyRender r.2)

/-- Result rows of the goals query of the clickevent variant: no `WHERE`,
no `HAVING`. -/
def goalsRowsClick (players : List PlayerRow) (games : List GameRow) :
    List (String × Option Int) :=
  players.map fun p =>
    let gs := games.filter fun g => g.player_id == p.player_id
    (p.player_name, if gs.isEmpty then none else some (sumGoals gs))

/-- The goals chart's input data in the clickevent variant: rows ordered
by total ascending and rendered null-to-zero. -/
def goalsChartInputClick (players : List PlayerRow) (games : List GameRow) :
    List (String × Int) :=
  (sortBy (fun a b => optLeB a.2 b.2) (goalsRowsClick players games)).map fun r =>
    (r.1, pyRender r.2)

/-! ## Lemmas about decimal parsing and rendering -/

theorem digCh_isDigit (k : Nat) (hk : k < 10) : (digCh k).isDigit = true := by
  interval_cases k <;> decide

theorem dval_digCh (k : Nat) (hk : k < 10) : dval (digCh k) = k := by
  interval_cases k <;> decide

theorem decValue_append_digit (xs : List Char) (c : Char) :
    decValue (xs ++ [c]) = 10 * decValue xs + dval c := by
  simp [decValue, List.foldl_append]

theorem natDecCharsAux_spec (fuel : Nat) :
    ∀ n, n ≤ fuel → decValue (natDecCharsAux fuel n) = n ∧
      (natDecCharsAux fuel n).all Char.isDigit = true ∧ natDecCharsAux fuel n ≠ [] := by
  induction fuel with
  | zero =>
    intro n hn
    interval_cases n
    refine ⟨by decide, by decide, by decide⟩
  | succ fuel ih =>
    intro n hn
    by_cases h : n < 10
    · refine ⟨?_, ?_, ?_⟩ <;> simp [natDecCharsAux, h, decValue, dval_digCh n h, digCh_isDigit n h]
    · have hdiv : n / 10 ≤ fuel := by
        have := Nat.div_lt_self (by omega : 0 < n) (by omega : 1 < 10)
        omega
      obtain ⟨h1, h2, h3⟩ := ih (n / 10) hdiv
      have hmod : n % 10 < 10 := Nat.mod_lt _ (by omega)
      refine ⟨?_, ?_, ?_⟩
      · simp only [natDecCharsAux, if_neg h]
        rw [decValue_append_digit, h1, dval_digCh _ hmod]
        omega
      · simp [natDecCharsAux, if_neg h, List.all_append, h2, digCh_isDigit _ hmod]
      · simp [natDecCharsAux, if_neg h]

theorem decValue_natDecChars (n : Nat) : decValue (natDecChars n) = n :=
  (natDecCharsAux_spec n n le_rfl).1

theorem pyIsdigit_natDecChars (n : Nat) : pyIsdigit (natDecChars n) = true := by
  obtain ⟨_, h2, h3⟩ := natDecCharsAux_spec n n le_rfl
  unfold pyIsdigit natDecChars
  cases hc : natDecCharsAux n n with
  | nil => exact absurd hc h3
  | cons a as =>
    rw [hc] at h2
    rw [h2]
    rfl

theorem parseIntOr0_natDecChars (n : Nat) : parseIntOr0 (String.mk (natDecChars n)) = n := by
  simp only [parseIntOr0]
  rw [pyIsdigit_natDecChars n, if_pos rfl, decValue_natDecChars n]

theorem pyToInt_int_nonneg (i : Int) (h : 0 ≤ i) : pyToInt (PyVal.int i) = i := by
  simp only [pyToInt, pyStrOf, if_neg (not_lt.mpr h)]
  rw [parseIntOr0_natDecChars, Int.natAbs_of_nonneg h]

theorem pyToInt_int_neg (i : Int) (h : i < 0) : pyToInt (PyVal.int i) = 0 := by
  simp only [pyToInt, pyStrOf, if_pos h, parseIntOr0]
  have hdigit : ('-').isDigit = false := by decide
  have hfalse : pyIsdigit ('-' :: natDecChars i.natAbs) = false := by
    unfold pyIsdigit
    rw [List.all_cons, hdigit]
    simp
  rw [hfalse]
  simp

/-- C6. Digit-or-zero parsing policy: (1) the parse inverts Python's
decimal rendering, so digit-only text parses to its integer value;
(2) text that is not digit-only parses to 0; (3)–(4) the store layer's
conversion maps a nonnegative integer scalar to itself and a negative one
to 0; (5) the store layer's conversion on string scalars is exactly the
digit-or-zero parse; (6) the Record Extractor applies the same parse for
the minutes (column 5), goals (column 6) and round (column 2) fields;
(7)–(8) the spec's examples: text "45" parses to 45 and text "45'"
parses to 0. -/
theorem c6_digit_or_zero :
    (∀ n : Nat, parseIntOr0 (String.mk (natDecChars n)) = n) ∧
    (∀ s : String, pyIsdigit s.data = false → parseIntOr0 s = 0) ∧
    (∀ i : Int, 0 ≤ i → pyToInt (PyVal.int i) = i) ∧
    (∀ i : Int, i < 0 → pyToInt (PyVal.int i) = 0) ∧
    (∀ s : String, pyToInt (PyVal.str s) = parseIntOr0 s) ∧
    (∀ (st : List GameRec × GameRec) (text : String),
      (stepFrag st ⟨["c5"], text, none⟩).2.einsatzMinuten = some (PyVal.int (parseIntOr0 text)) ∧
      (stepFrag st ⟨["c6"], text, none⟩).2.tore = some (PyVal.int (parseIntOr0 text)) ∧
      (stepFrag st ⟨["c2"], text, none⟩).2.runde = some (parseIntOr0 text)) ∧
    parseIntOr0 "45" = 45 ∧ parseIntOr0 "45'" = 0 := by
  refine ⟨parseIntOr0_natDecChars, ?_, pyToInt_int_nonneg, pyToInt_int_neg, ?_, ?_, by decide, by decide⟩
  · intro s h
    simp [parseIntOr0, h]
  · intro s
    rfl
  · intro st text
    exact ⟨rfl, rfl, rfl⟩

/-- Witness for C6 at concrete inputs. -/
theorem c6_digit_or_zero_witness :
    pyIsdigit ("45'").data = false ∧ parseIntOr0 ("45'") = 0 ∧ pyToInt (PyVal.int 7) = 7 :=
  ⟨by decide, c6_digit_or_zero.2.1 "45'" (by decide), c6_digit_or_zero.2.2.1 7 (by decide)⟩

/-! ## Lemmas about the upsert loop -/

theorem updRow_player_id (now : String) (g : GameRec) (r : GameRow) :
    (updRow now g r).player_id = r.player_id := rfl

theorem updRow_game_timestamp (now : String) (g : GameRec) (r : GameRow) :
    (updRow now g r).game_timestamp = r.game_timestamp := rfl

theorem keyExists_updTable (q ts : Int) (now : String) (p : Int) (g : GameRec)
    (t : List GameRow) : keyExists q ts (updTable now p g t) = keyExists q ts t := by
  induction t with
  | nil => rfl
  | cons r rest ih =>
    simp only [updTable, List.map_cons, keyExists, List.any_cons] at ih ⊢
    rw [ih]
    congr 1
    split <;> rfl

theorem length_updTable (now : String) (p : Int) (g : GameRec) (t : List GameRow) :
    (updTable now p g t).length = t.length := List.length_map t _

theorem keyExists_append_left (q ts : Int) (t l : List GameRow)
    (h : keyExists q ts t = true) : keyExists q ts (t ++ l) = true := by
  simp [keyExists, List.any_append] at *
  exact Or.inl h

theorem keyExists_insRow_self (tz : Int) (now : String) (p : Int) (g : GameRec)
    (t : List GameRow) : keyExists p (g.anstoss.getD 0) (t ++ [insRow tz now p g]) = true := by
  simp [keyExists, List.any_append, insRow]

theorem saveLoop_keyExists_mono (tz : Int) (now : String) (p q ts : Int) :
    ∀ (recs : List GameRec) (t : List GameRow) (n u : Nat),
      keyExists q ts t = true → keyExists q ts (saveLoop tz now p recs t n u).1 = true := by
  intro recs
  induction recs with
  | nil => intro t n u h; simpa [saveLoop] using h
  | cons g rest ih =>
    intro t n u h
    simp only [saveLoop]
    split
    · exact ih _ _ _ (by rwa [keyExists_updTable])
    · exact ih _ _ _ (keyExists_append_left _ _ _ _ h)

theorem saveLoop_all_keys (tz : Int) (now : String) (p : Int) :
    ∀ (recs : List GameRec) (t : List GameRow) (n u : Nat) (g : GameRec), g ∈ recs →
      keyExists p (g.anstoss.getD 0) (saveLoop tz now p recs t n u).1 = true := by
  intro recs
  induction recs with
  | nil => intro t n u g hg; simp at hg
  | cons g0 rest ih =>
    intro t n u g hg
    simp only [saveLoop]
    rcases List.mem_cons.mp hg with rfl | hg'
    · by_cases hk : keyExists p (g.anstoss.getD 0) t
      · rw [if_pos hk]
        exact saveLoop_keyExists_mono _ _ _ _ _ _ _ _ _ (by rwa [keyExists_updTable])
      · rw [if_neg hk]
        exact saveLoop_keyExists_mono _ _ _ _ _ _ _ _ _ (keyExists_insRow_self _ _ _ _ _)
    · split
      · exact ih _ _ _ g hg'
      · exact ih _ _ _ g hg'

theorem saveLoop_no_insert (tz : Int) (now : String) (p : Int) :
    ∀ (recs : List GameRec) (t : List GameRow) (n u : Nat),
      (∀ g ∈ recs, keyExists p (g.anstoss.getD 0) t = true) →
      (saveLoop tz now p recs t n u).2.1 = n ∧
        (saveLoop tz now p recs t n u).1.length = t.length := by
  intro recs
  induction recs with
  | nil => intro t n u _; exact ⟨rfl, rfl⟩
  | cons g rest ih =>
    intro t n u h
    have hk : keyExists p (g.anstoss.getD 0) t = true := h g (List.mem_cons_self g rest)
    simp only [saveLoop, hk, if_true]
    have h' : ∀ g' ∈ rest, keyExists p (g'.anstoss.getD 0) (updTable now p g t) = true :=
      fun g' hg' => by rw [keyExists_updTable]; exact h g' (List.mem_cons_of_mem _ hg')
    obtain ⟨h1, h2⟩ := ih (updTable now p g t) n (u + 1) h'
    exact ⟨h1, by rw [h2, length_updTable]⟩

/-- C1. Upsert idempotence: a second run of `save_games_to_db` with the
same player and the same record sequence (possibly at a different wall
clock `now2`) inserts zero new rows, and the `games` table has the same
number of rows after the second run as after the first. -/
theorem c1_upsert_idempotent (tz : Int) (now1 now2 : String) (p : Int)
    (recs : List GameRec) (db : DBState) :
    (saveGamesToDb tz now2 p recs (saveGamesToDb tz now1 p recs db).1).2.1 = 0 ∧
    (saveGamesToDb tz now2 p recs (saveGamesToDb tz now1 p recs db).1).1.games.length =
      (saveGamesToDb tz now1 p recs db).1.games.length := by
  have hall : ∀ g ∈ recs,
      keyExists p (g.anstoss.getD 0) (saveLoop tz now1 p recs db.games 0 0).1 = true :=
    fun g hg => saveLoop_all_keys tz now1 p recs db.games 0 0 g hg
  obtain ⟨h1, h2⟩ :=
    saveLoop_no_insert tz now2 p recs (saveLoop tz now1 p recs db.games 0 0).1 0 0 hall
  exact ⟨h1, h2⟩

/-! ## Frame lemmas: rows of other players are untouched -/

theorem filter_map_invariant (f : GameRow → GameRow) (q : GameRow → Bool)
    (h1 : ∀ r, q (f r) = q r) (h2 : ∀ r, q r = true → f r = r) :
    ∀ t : List GameRow, (t.map f).filter q = t.filter q := by
  intro t
  induction t with
  | nil => rfl
  | cons r rest ih =>
    by_cases hq : q r
    · simp [List.filter_cons, hq, h1 r, h2 r hq, ih]
    · simp only [Bool.not_eq_true] at hq
      simp [List.filter_cons, hq, h1 r, ih]

theorem filter_ne_updTable (now : String) (p : Int) (g : GameRec) (t : List GameRow) :
    (updTable now p g t).filter (fun r => !(r.player_id == p)) =
      t.filter (fun r => !(r.player_id == p)) := by
  unfold updTable
  apply filter_map_invariant
  · intro r
    split <;> rfl
  · intro r hr
    have : (r.player_id == p) = false := by
      cases hc : (r.player_id == p) with
      | false => rfl
      | true => rw [hc] at hr; exact absurd hr (by decide)
    rw [if_neg]
    simp [this]

theorem filter_ne_append_ins (tz : Int) (now : String) (p : Int) (g : GameRec)
    (t : List GameRow) :
    (t ++ [insRow tz now p g]).filter (fun r => !(r.player_id == p)) =
      t.filter (fun r => !(r.player_id == p)) := by
  rw [List.filter_append]
  have : ([insRow tz now p g].filter fun r => !(r.player_id == p)) = [] := by
    simp [insRow]
  rw [this, List.append_nil]

theorem saveLoop_filter_ne (tz : Int) (now : String) (p : Int) :
    ∀ (recs : List GameRec) (t : List GameRow) (n u : Nat),
      (saveLoop tz now p recs t n u).1.filter (fun r => !(r.player_id == p)) =
        t.filter (fun r => !(r.player_id == p)) := by
  intro recs
  induction recs with
  | nil => intro t n u; rfl
  | cons g rest ih =>
    intro t n u
    simp only [saveLoop]
    split
    · rw [ih, filter_ne_updTable]
    · rw [ih, filter_ne_append_ins]

/-- C9. Frame property of `save_games_to_db`: the `players` table is left
completely unchanged, and so is every `games` row whose `player_id`
differs from the saved player (in value and in relative order). -/
theorem c9_frame (tz : Int) (now : String) (p : Int) (recs : List GameRec) (db : DBState) :
    (saveGamesToDb tz now p recs db).1.players = db.players ∧
    (saveGamesToDb tz now p recs db).1.games.filter (fun r => !(r.player_id == p)) =
      db.games.filter (fun r => !(r.player_id == p)) :=
  ⟨rfl, saveLoop_filter_ne tz now p recs db.games 0 0⟩

/-! ## Lemmas for the upsert merge (C2) -/

theorem filter_key_updTable (now : String) (p ts : Int) (g : GameRec) (t : List GameRow)
    (hts : g.anstoss.getD 0 = ts) :
    (updTable now p g t).filter (fun r => r.player_id == p && r.game_timestamp == ts) =
      (t.filter (fun r => r.player_id == p && r.game_timestamp == ts)).map (updRow now g) := by
  subst hts
  induction t with
  | nil => rfl
  | cons r rest ih =>
    simp only [updTable, List.map_cons] at ih ⊢
    by_cases hc : (r.player_id == p && r.game_timestamp == g.anstoss.getD 0) = true
    · have hf : (if (r.player_id == p && r.game_timestamp == g.anstoss.getD 0) = true then
          updRow now g r else r) = updRow now g r := if_pos hc
      have hpred : ((updRow now g r).player_id == p &&
          (updRow now g r).game_timestamp == g.anstoss.getD 0) = true := by
        rw [updRow_player_id, updRow_game_timestamp]
        exact hc
      simp only [hf, List.filter_cons]
      rw [hpred, hc]
      simp only [eq_self_iff_true, if_true, List.map_cons]
      rw [ih]
    · have hc' : (r.player_id == p && r.game_timestamp == g.anstoss.getD 0) = false := by
        cases hb : (r.player_id == p && r.game_timestamp == g.anstoss.getD 0) with
        | false => rfl
        | true => exact absurd hb hc
      have hf : (if (r.player_id == p && r.game_timestamp == g.anstoss.getD 0) = true then
          updRow now g r else r) = r := if_neg hc
      simp only [hf, List.filter_cons]
      rw [hc']
      simp only [Bool.false_eq_true, if_false]
      exact ih

theorem filter_key_nil_of_not_exists (p ts : Int) (t : List GameRow)
    (h : keyExists p ts t = false) :
    t.filter (fun r => r.player_id == p && r.game_timestamp == ts) = [] := by
  rw [List.filter_eq_nil_iff]
  intro r hr
  intro hcontra
  have : keyExists p ts t = true := by
    unfold keyExists
    rw [List.any_eq_true]
    exact ⟨r, hr, hcontra⟩
  rw [h] at this
  exact absurd this (by decide)

/-- C2. Upsert merge: persisting two records that share the business key
`(player_id, match timestamp)` in one `save_games_to_db` call against a
table with no row for that key leaves exactly one `games` row for the key,
and that row carries the second record's field values (the derived
`game_date` is determined by the shared timestamp). -/
theorem c2_upsert_merge (tz : Int) (now : String) (p : Int) (r1 r2 : GameRec) (db : DBState)
    (heq : r2.anstoss.getD 0 = r1.anstoss.getD 0)
    (hfree : keyExists p (r1.anstoss.getD 0) db.games = false) :
    (saveGamesToDb tz now p [r1, r2] db).1.games.filter
        (fun r => r.player_id == p && r.game_timestamp == r1.anstoss.getD 0) =
      [{ player_id := p
         game_date := if r1.anstoss.getD 0 == 0 then none else some (fmtLocal tz (r1.anstoss.getD 0))
         competition := r2.bewerb.getD ""
         age_group := r2.ageGroup.getD ""
         round := r2.runde.getD 0
         home_team := r2.heimMannschaft.getD ""
         away_team := r2.gastMannschaft.getD ""
         result := r2.ergebnis.getD ""
         minutes_played := pyToInt (r2.einsatzMinuten.getD (PyVal.str "0"))
         goals := pyToInt (r2.tore.getD (PyVal.str "0"))
         location := r2.spielortBezeichnung.getD ""
         match_link := r2.actionLink.getD ""
         game_timestamp := r1.anstoss.getD 0
         last_updated := now }] := by
  simp only [saveGamesToDb, saveLoop]
  rw [if_neg (by simp [hfree])]
  have hex : keyExists p (r2.anstoss.getD 0) (db.games ++ [insRow tz now p r1]) = true := by
    rw [heq]
    exact keyExists_insRow_self tz now p r1 db.games
  rw [if_pos hex]
  rw [filter_key_updTable now p (r1.anstoss.getD 0) r2 _ heq]
  rw [List.filter_append, filter_key_nil_of_not_exists p _ _ hfree]
  have hins : ([insRow tz now p r1].filter
      (fun r => r.player_id == p && r.game_timestamp == r1.anstoss.getD 0)) =
      [insRow tz now p r1] := by
    simp [insRow]
  rw [List.nil_append, hins]
  rfl

/-- Witness for C2: two concrete records sharing timestamp 1000 and
differing in goals, saved into an empty database. -/
theorem c2_upsert_merge_witness :
    ((({ emptyRec with anstoss := some 1000, tore := some (PyVal.int 2) } : GameRec).anstoss.getD 0
        = 1000) ∧
      keyExists 7 1000 ([] : List GameRow) = false) ∧
    (saveGamesToDb 0 "T" 7
        [{ emptyRec with anstoss := some 1000, tore := some (PyVal.int 1) },
         { emptyRec with anstoss := some 1000, tore := some (PyVal.int 2) }]
        ⟨[], []⟩).1.games.filter
        (fun r => r.player_id == 7 && r.game_timestamp == 1000) =
      [{ player_id := 7
         game_date := some "1970-01-01 00:00:01"
         competition := ""
         age_group := ""
         round := 0
         home_team := ""
         away_team := ""
         result := ""
         minutes_played := 0
         goals := 2
         location := ""
         match_link := ""
         game_timestamp := 1000
         last_updated := "T" }] := by
  constructor
  · exact ⟨by decide, by decide⟩
  · have h := c2_upsert_merge 0 "T" 7
      { emptyRec with anstoss := some 1000, tore := some (PyVal.int 1) }
      { emptyRec with anstoss := some 1000, tore := some (PyVal.int 2) }
      ⟨[], []⟩ (by decide) (by decide)
    have hts : ({ emptyRec with anstoss := some 1000, tore := some (PyVal.int 1) } :
        GameRec).anstoss.getD 0 = 1000 := by decide
    rw [hts] at h
    rw [h]
    decide

/-! ## Lemmas for NULL game dates and the windowed aggregations (C10) -/

theorem inWindow_append_null (games : List GameRow) (row : GameRow) (pid : Int)
    (hrow : row.game_date = none) :
    inWindowGames (games ++ [row]) pid = inWindowGames games pid := by
  unfold inWindowGames
  rw [List.filter_append]
  have : ([row].filter fun g => g.player_id == pid &&
      dateBetween g.game_date windowLo windowHi) = [] := by
    simp [List.filter_cons, hrow, dateBetween]
  rw [this, List.append_nil]

theorem minutesChartInput_append_null (players : List PlayerRow) (games : List GameRow)
    (row : GameRow) (hrow : row.game_date = none) :
    minutesChartInputMain players (games ++ [row]) = minutesChartInputMain players games := by
  unfold minutesChartInputMain minutesRowsMain
  simp only [inWindow_append_null games row _ hrow]

theorem goalsChartInput_append_null (players : List PlayerRow) (games : List GameRow)
    (row : GameRow) (hrow : row.game_date = none) :
    goalsChartInputMain players (games ++ [row]) = goalsChartInputMain players games := by
  unfold goalsChartInputMain goalsRowsMain
  simp only [inWindow_append_null games row _ hrow]

/-- C10. A record whose match timestamp is 0 (or missing) is inserted with
a `NULL` `game_date`; consequently the windowed (`BETWEEN`) minutes and
goals aggregations of `scrape_two_step.py` are unchanged by the insertion,
so the minutes and goals of unknown-time games never contribute to those
chart inputs. -/
theorem c10_null_date_excluded (tz : Int) (now : String) (p : Int) (players : List PlayerRow)
    (r : GameRec) (db : DBState) (hts : r.anstoss.getD 0 = 0)
    (hfree : keyExists p 0 db.games = false) :
    (saveGamesToDb tz now p [r] db).1.games = db.games ++ [insRow tz now p r] ∧
    (insRow tz now p r).game_date = none ∧
    minutesChartInputMain players (saveGamesToDb tz now p [r] db).1.games =
      minutesChartInputMain players db.games ∧
    goalsChartInputMain players (saveGamesToDb tz now p [r] db).1.games =
      goalsChartInputMain players db.games := by
  have hgames : (saveGamesToDb tz now p [r] db).1.games = db.games ++ [insRow tz now p r] := by
    simp only [saveGamesToDb, saveLoop]
    rw [hts, if_neg (by simp [hfree])]
  have hdate : (insRow tz now p r).game_date = none := by
    simp [insRow, hts]
  refine ⟨hgames, hdate, ?_, ?_⟩
  · rw [hgames]
    exact minutesChartInput_append_null players db.games _ hdate
  · rw [hgames]
    exact goalsChartInput_append_null players db.games _ hdate

/-- Witness for C10: a record with timestamp 0 saved for player 1 into an
empty database, with one saved player. -/
theorem c10_null_date_excluded_witness :
    ((({ emptyRec with anstoss := some 0, einsatzMinuten := some (PyVal.int 90) } :
          GameRec).anstoss.getD 0 = 0) ∧
      keyExists 1 0 ([] : List GameRow) = false) ∧
    minutesChartInputMain [⟨1, "Player A", "U13", 2026, ""⟩]
        (saveGamesToDb 0 "T" 1
          [{ emptyRec with anstoss := some 0, einsatzMinuten := some (PyVal.int 90) }]
          ⟨[⟨1, "Player A", "U13", 2026, ""⟩], []⟩).1.games =
      minutesChartInputMain [⟨1, "Player A", "U13", 2026, ""⟩] ([] : List GameRow) := by
  constructor
  · exact ⟨by decide, by decide⟩
  · exact (c10_null_date_excluded 0 "T" 1 [⟨1, "Player A", "U13", 2026, ""⟩]
      { emptyRec with anstoss := some 0, einsatzMinuten := some (PyVal.int 90) }
      ⟨[⟨1, "Player A", "U13", 2026, ""⟩], []⟩ (by decide) (by decide)).2.2.1

/-! ## Lemmas about the extractor's date-field behaviour (C3) -/

/-- A column tag that fills a field of the current buffer without starting
a record (columns 1–6). -/
def fieldColB : Option Nat → Bool
  | some k => decide (1 ≤ k) && decide (k ≤ 6)
  | none => false

theorem stepFrag_datum (st : List GameRec × GameRec) (f : Frag) :
    (stepFrag st f).2.datum = st.2.datum ∨ (stepFrag st f).2.datum.isSome = true := by
  cases hc : colOf f.classes with
  | none => left; simp [stepFrag, hc]
  | some k =>
    rcases k with _ | _ | _ | _ | _ | _ | _ | n
    · right; simp [stepFrag, hc]
    · left; simp [stepFrag, hc]
    · left; simp [stepFrag, hc]
    · rcases hl : f.link with _ | l
      · left; simp [stepFrag, hc, hl]
      · left
        simp only [stepFrag, hc, hl]
        split <;> rfl
    · left; simp [stepFrag, hc]
    · left; simp [stepFrag, hc]
    · left; simp [stepFrag, hc]
    · left; simp [stepFrag, hc]

theorem stepFrag_emitted (st : List GameRec × GameRec) (f : Frag) :
    ∀ g ∈ (stepFrag st f).1, g ∈ st.1 ∨ g = st.2 := by
  intro g hg
  cases hc : colOf f.classes with
  | none =>
    simp only [stepFrag, hc] at hg
    exact Or.inl hg
  | some k =>
    rcases k with _ | _ | _ | _ | _ | _ | _ | n
    · simp only [stepFrag, hc] at hg
      split at hg
      · exact Or.inl hg
      · rcases List.mem_append.mp hg with h | h
        · exact Or.inl h
        · exact Or.inr (List.mem_singleton.mp h)
    · simp only [stepFrag, hc] at hg
      exact Or.inl hg
    · simp only [stepFrag, hc] at hg
      exact Or.inl hg
    · rcases hl : f.link with _ | l
      · simp only [stepFrag, hc, hl] at hg
        exact Or.inl hg
      · simp only [stepFrag, hc, hl] at hg
        exact Or.inl hg
    · simp only [stepFrag, hc] at hg
      exact Or.inl hg
    · simp only [stepFrag, hc] at hg
      exact Or.inl hg
    · simp only [stepFrag, hc] at hg
      exact Or.inl hg
    · simp only [stepFrag, hc] at hg
      exact Or.inl hg

theorem scan_all_datum :
    ∀ (frags : List Frag) (emitted : List GameRec) (cur : GameRec),
      (∀ g ∈ emitted, g.datum.isSome = true) → cur.datum.isSome = true →
      ∀ g ∈ (frags.foldl stepFrag (emitted, cur)).1 ++
          tailFlush (frags.foldl stepFrag (emitted, cur)).2,
        g.datum.isSome = true := by
  intro frags
  induction frags with
  | nil =>
    intro emitted cur hem hcur g hg
    rw [List.foldl_nil] at hg
    rcases List.mem_append.mp hg with h | h
    · exact hem g h
    · revert h
      unfold tailFlush
      split
      · intro h
        rw [List.mem_singleton.mp h]
        exact hcur
      · intro h
        exact absurd h (List.not_mem_nil g)
  | cons f rest ih =>
    intro emitted cur hem hcur g hg
    rw [List.foldl_cons] at hg
    have h1 : ∀ g' ∈ (stepFrag (emitted, cur) f).1, g'.datum.isSome = true := by
      intro g' hg'
      rcases stepFrag_emitted (emitted, cur) f g' hg' with h | h
      · exact hem g' h
      · rw [h]
        exact hcur
    have h2 : (stepFrag (emitted, cur) f).2.datum.isSome = true := by
      rcases stepFrag_datum (emitted, cur) f with h | h
      · rw [h]
        exact hcur
      · exact h
    exact ih (stepFrag (emitted, cur) f).1 (stepFrag (emitted, cur) f).2 h1 h2 g hg

theorem rawGames_all_datum :
    ∀ frags : List Frag,
      (∀ f ∈ frags.takeWhile (fun f => !(colOf f.classes == some 0)),
        fieldColB (colOf f.classes) = false) →
      ∀ g ∈ rawGames frags, g.datum.isSome = true := by
  intro frags
  induction frags with
  | nil =>
    intro _ g hg
    have hnil : rawGames ([] : List Frag) = [] := by decide
    rw [hnil] at hg
    exact absurd hg (List.not_mem_nil g)
  | cons f rest ih =>
    intro h g hg
    by_cases hc0 : (colOf f.classes == some 0) = true
    · have hc0' : colOf f.classes = some 0 := eq_of_beq hc0
      have hstep : stepFrag ([], emptyRec) f = ([], { emptyRec with datum := some f.text }) := by
        simp [stepFrag, hc0', emptyRec, GameRec.isEmptyRec]
      unfold rawGames at hg
      rw [List.foldl_cons, hstep] at hg
      exact scan_all_datum rest [] { emptyRec with datum := some f.text }
        (fun g' hg' => absurd hg' (List.not_mem_nil g')) (by simp) g hg
    · have hb : (colOf f.classes == some 0) = false := by
        cases hb2 : (colOf f.classes == some 0) with
        | false => rfl
        | true => exact absurd hb2 hc0
      have htw : (f :: rest).takeWhile (fun f => !(colOf f.classes == some 0)) =
          f :: rest.takeWhile (fun f => !(colOf f.classes == some 0)) := by
        rw [List.takeWhile_cons]
        simp [hb]
      have hmemtw : f ∈ (f :: rest).takeWhile (fun f => !(colOf f.classes == some 0)) := by
        rw [htw]
        exact List.mem_cons_self _ _
      have hf : fieldColB (colOf f.classes) = false := h f hmemtw
      have htail : ∀ f' ∈ rest.takeWhile (fun f => !(colOf f.classes == some 0)),
          fieldColB (colOf f'.classes) = false := by
        intro f' hf'
        refine h f' ?_
        rw [htw]
        exact List.mem_cons_of_mem _ hf'
      have hstep : stepFrag ([], emptyRec) f = ([], emptyRec) := by
        cases hcc : colOf f.classes with
        | none => simp [stepFrag, hcc]
        | some k =>
          rcases k with _ | _ | _ | _ | _ | _ | _ | n
          · exact absurd (by rw [hcc]; rfl) hc0
          · rw [hcc] at hf
            exact absurd hf (by decide)
          · rw [hcc] at hf
            exact absurd hf (by decide)
          · rw [hcc] at hf
            exact absurd hf (by decide)
          · rw [hcc] at hf
            exact absurd hf (by decide)
          · rw [hcc] at hf
            exact absurd hf (by decide)
          · rw [hcc] at hf
            exact absurd hf (by decide)
          · simp [stepFrag, hcc]
      unfold rawGames at hg
      rw [List.foldl_cons, hstep] at hg
      exact ih htail g hg

/-- C3 as stated is refuted by a column-1 fragment preceding the first
column-0 fragment: the buffered dateless record is flushed by the later
column-0 fragment and emitted without a date field. -/
theorem c3_counterexample :
    (extractGames 0 [⟨["c1"], "Foo", none⟩, ⟨["c0"], "01.01.2025, 10:00 Uhr", none⟩]).map
      (fun g => g.datum.isSome) = [false, true] := by
  decide

/-- C3 amended. Every record emitted by the extractor carries a date
field, provided no column-1..6 fragment precedes the first column-0
fragment; without that proviso a dateless buffered record assembled
before the first column-0 fragment is emitted when that fragment arrives
(only the trailing flush checks for the date field). -/
theorem c3_amended (tz : Int) (frags : List Frag)
    (h : ∀ f ∈ frags.takeWhile (fun f => !(colOf f.classes == some 0)),
      fieldColB (colOf f.classes) = false) :
    ∀ g ∈ extractGames tz frags, g.datum.isSome = true := by
  intro g hg
  unfold extractGames at hg
  rcases List.mem_map.mp hg with ⟨g', hg', rfl⟩
  exact rawGames_all_datum frags h g' hg'

/-- Witness for C3 at a concrete well-formed fragment sequence. -/
theorem c3_amended_witness :
    (extractGames 0 [⟨["c0"], "01.01.2025, 10:00 Uhr", none⟩, ⟨["c1"], "U13 Liga", none⟩]).all
      (fun g => g.datum.isSome) = true := by
  have h := c3_amended 0 [⟨["c0"], "01.01.2025, 10:00 Uhr", none⟩, ⟨["c1"], "U13 Liga", none⟩]
    (by decide)
  rw [List.all_eq_true]
  intro g hg
  exact h g hg

/-! ## Lemmas for the date post-processing (C7) -/

theorem pyReplaceDelAux_sublist (pat : List Char) :
    ∀ (fuel : Nat) (cs : List Char), List.Sublist (pyReplaceDelAux pat fuel cs) cs := by
  intro fuel
  induction fuel with
  | zero =>
    intro cs
    cases cs with
    | nil => exact List.Sublist.refl _
    | cons c rest => exact List.Sublist.refl _
  | succ fuel ih =>
    intro cs
    cases cs with
    | nil => exact List.Sublist.refl _
    | cons c rest =>
      simp only [pyReplaceDelAux]
      split
      · exact ((ih _).trans (List.drop_sublist _ _)).trans (List.sublist_cons_self c rest)
      · exact (ih rest).cons₂ c

theorem mem_pyReplaceDel (pat cs : List Char) (a : Char) (h : a ∈ pyReplaceDel pat cs) :
    a ∈ cs :=
  (pyReplaceDelAux_sublist pat (cs.length + 1) cs).subset h

theorem mem_pyStrip (cs : List Char) (a : Char) (h : a ∈ pyStrip cs) : a ∈ cs := by
  unfold pyStrip at h
  rw [List.mem_reverse] at h
  have h2 := (List.dropWhile_sublist Char.isWhitespace).subset h
  rw [List.mem_reverse] at h2
  exact (List.dropWhile_sublist Char.isWhitespace).subset h2

theorem takeD2_subset (cs : List Char) (v : Nat) (cs' : List Char)
    (h : takeD2 cs = some (v, cs')) : ∀ a ∈ cs', a ∈ cs := by
  match cs with
  | [] => simp [takeD2] at h
  | [a0] =>
    cases hd : a0.isDigit with
    | false => rw [takeD2, if_neg (by simp [hd])] at h; exact absurd h (by simp)
    | true =>
      rw [takeD2, if_pos hd] at h
      have hcs : cs' = [] := (congrArg Prod.snd (Option.some.inj h)).symm
      subst hcs
      intro a ha
      exact absurd ha (List.not_mem_nil a)
  | a0 :: a1 :: rest =>
    cases hd : a0.isDigit with
    | false => rw [takeD2, if_neg (by simp [hd])] at h; exact absurd h (by simp)
    | true =>
      rw [takeD2, if_pos hd] at h
      cases hd1 : a1.isDigit with
      | false =>
        rw [if_neg (by simp [hd1])] at h
        have : cs' = a1 :: rest := (congrArg Prod.snd (Option.some.inj h)).symm
        subst this
        intro a ha
        exact List.mem_cons_of_mem a0 ha
      | true =>
        rw [if_pos hd1] at h
        have : cs' = rest := (congrArg Prod.snd (Option.some.inj h)).symm
        subst this
        intro a ha
        exact List.mem_cons_of_mem a0 (List.mem_cons_of_mem a1 ha)

theorem expectCh_some (c : Char) (cs cs' : List Char) (h : expectCh c cs = some cs') :
    c ∈ cs ∧ ∀ a ∈ cs', a ∈ cs := by
  match cs with
  | [] => simp [expectCh] at h
  | a :: rest =>
    cases hb : (a == c) with
    | false => rw [expectCh, if_neg (by simp [hb])] at h; exact absurd h (by simp)
    | true =>
      rw [expectCh, if_pos hb] at h
      have hcs : cs' = rest := (Option.some.inj h).symm
      have hac : a = c := eq_of_beq hb
      refine ⟨hac ▸ List.mem_cons_self a rest, fun x hx => ?_⟩
      rw [hcs] at hx
      exact List.mem_cons_of_mem a hx

theorem strptimeDMYHM_some_mem (cs : List Char) (tup : Nat × Nat × Nat × Nat × Nat)
    (h : strptimeDMYHM cs = some tup) : cs ≠ [] ∧ '.' ∈ cs := by
  constructor
  · intro hnil
    subst hnil
    simp [strptimeDMYHM, takeD2] at h
  · rcases h1 : takeD2 cs with _ | ⟨d, cs1⟩
    · unfold strptimeDMYHM at h
      rw [h1] at h
      simp at h
    · unfold strptimeDMYHM at h
      rw [h1] at h
      simp at h
      rcases h2 : expectCh '.' cs1 with _ | cs2
      · rw [h2] at h
        simp at h
      · obtain ⟨hdot, _⟩ := expectCh_some '.' cs1 cs2 h2
        exact takeD2_subset cs d cs1 h1 '.' hdot

/-- C7. Date parsing of the raw date text: (1) whenever the stripped text
parses with the `'%d.%m.%Y, %H:%M'` format as day `d`, month `m`, year
`y`, hour `h`, minute `mi`, the record's timestamp is the
millisecond-precision epoch value of that local time (at UTC offset `tz`
seconds); (2) any text whose stripped form fails to parse yields
timestamp 0; (3) in particular the text "garbage" yields 0; and (4) the
post-processing step never drops a record: the extractor's output has
exactly one record per raw buffered record. -/
theorem c7_date_parsing (tz : Int) (s : String) (d m y h mi : Nat)
    (hp : strptimeDMYHM (pyStrip (pyReplaceDel uhrPat s.data)) = some (d, m, y, h, mi)) :
    anstossOfDatum tz s =
      1000 * (86400 * daysFromCivil y m d + 3600 * (h : Int) + 60 * (mi : Int) - tz) ∧
    (∀ s' : String, strptimeDMYHM (pyStrip (pyReplaceDel uhrPat s'.data)) = none →
      anstossOfDatum tz s' = 0) ∧
    anstossOfDatum tz "garbage" = 0 ∧
    (∀ frags : List Frag, (extractGames tz frags).length = (rawGames frags).length) := by
  refine ⟨?_, ?_, ?_, fun frags => List.length_map _ _⟩
  · obtain ⟨hne, hdot⟩ := strptimeDMYHM_some_mem _ _ hp
    have hdots : '.' ∈ s.data :=
      mem_pyReplaceDel uhrPat s.data '.' (mem_pyStrip _ '.' hdot)
    have hnes : s.data ≠ [] := by
      intro hnil
      rw [hnil] at hp
      simp [pyReplaceDel, pyReplaceDelAux, pyStrip, strptimeDMYHM, takeD2] at hp
    have hisEmpty : s.data.isEmpty = false := by
      cases hc : s.data with
      | nil => exact absurd hc hnes
      | cons a as => simp [List.isEmpty]
    have hcont : s.data.contains '.' = true := List.elem_iff.mpr hdots
    have hcond : (!s.data.isEmpty && s.data.contains '.') = true := by
      rw [hisEmpty, hcont]
      rfl
    simp only [anstossOfDatum]
    rw [hcond, hp]
    simp
  · intro s' hn
    simp only [anstossOfDatum]
    split
    · rw [hn]
    · rfl
  · have hcondg : (!("garbage").data.isEmpty && ("garbage").data.contains '.') = false := by
      decide
    simp only [anstossOfDatum]
    rw [hcondg]
    simp

/-- Witness for C7 at the spec's example date "15.11.2025, 11:30 Uhr" in a
UTC+1 environment: the result is the real epoch value 1763202600000 ms. -/
theorem c7_date_parsing_witness :
    strptimeDMYHM (pyStrip (pyReplaceDel uhrPat ("15.11.2025, 11:30 Uhr").data)) =
      some (15, 11, 2025, 11, 30) ∧
    anstossOfDatum 3600 "15.11.2025, 11:30 Uhr" = 1763202600000 := by
  have hp : strptimeDMYHM (pyStrip (pyReplaceDel uhrPat ("15.11.2025, 11:30 Uhr").data)) =
      some (15, 11, 2025, 11, 30) := by decide
  refine ⟨hp, ?_⟩
  have h := (c7_date_parsing 3600 "15.11.2025, 11:30 Uhr" 15 11 2025 11 30 hp).1
  rw [h]
  decide

/-! ## Lemmas for the column-3 team parsing (C8) -/

theorem pySplitAux_ne_nil (pat : List Char) :
    ∀ (fuel : Nat) (acc cs : List Char), pySplitAux pat fuel acc cs ≠ [] := by
  intro fuel
  induction fuel with
  | zero =>
    intro acc cs
    cases cs with
    | nil => simp [pySplitAux]
    | cons c rest => simp [pySplitAux]
  | succ fuel ih =>
    intro acc cs
    cases cs with
    | nil => simp [pySplitAux]
    | cons c rest =>
      simp only [pySplitAux]
      split
      · simp
      · exact ih _ _

theorem pySplitAux_length_iff (pat : List Char) (hpat : pat ≠ []) :
    ∀ (fuel : Nat) (acc cs : List Char), cs.length ≤ fuel →
      (2 ≤ (pySplitAux pat fuel acc cs).length ↔ pyContains pat cs = true) := by
  intro fuel
  induction fuel with
  | zero =>
    intro acc cs hlen
    have hcs : cs = [] := List.length_eq_zero.mp (Nat.le_zero.mp hlen)
    subst hcs
    simp [pySplitAux, pyContains, List.isEmpty_iff, hpat]
  | succ fuel ih =>
    intro acc cs hlen
    cases cs with
    | nil => simp [pySplitAux, pyContains, List.isEmpty_iff, hpat]
    | cons c rest =>
      have hpe : pat.isEmpty = false := by
        cases hc : pat with
        | nil => exact absurd hc hpat
        | cons a as => simp [List.isEmpty]
      simp only [pySplitAux, pyContains]
      cases hpre : leadsWith pat (c :: rest) with
      | true =>
        rw [if_pos (by rw [hpe]; rfl)]
        simp only [Bool.true_or]
        have hne := pySplitAux_ne_nil pat fuel [] (rest.drop (pat.length - 1))
        cases hq : pySplitAux pat fuel [] (rest.drop (pat.length - 1)) with
        | nil => exact absurd hq hne
        | cons x xs =>
          simp only [List.length_cons]
          exact iff_of_true (by omega) (by trivial)
      | false =>
        rw [if_neg (by simp)]
        rw [Bool.false_or]
        refine ih (c :: acc) rest ?_
        have : rest.length + 1 ≤ fuel + 1 := by simpa using hlen
        omega

theorem pySplit_length_iff (pat : List Char) (hpat : pat ≠ []) (cs : List Char) :
    2 ≤ (pySplit pat cs).length ↔ pyContains pat cs = true :=
  pySplitAux_length_iff pat hpat (cs.length + 1) [] cs (Nat.le_succ _)

/-- The spec-side reformulation of the column-3 branch, phrased by pattern
matching on the full split of the link title (written to the amended
claim's description): with a link whose title splits into at least two
pieces on `" - "`, the home team is the first piece and the away team the
second piece (both stripped) and the href is captured; with a link whose
title has no separator only the href is captured; with no link the
visible text becomes the home team and the away team is empty. -/
def col3Spec (cur : GameRec) (text : String) (link : Option LinkInfo) : GameRec :=
  match link with
  | none => { cur with heimMannschaft := some text, gastMannschaft := some "" }
  | some l =>
    match pySplit sepPat l.title.data with
    | t0 :: t1 :: _ =>
      { cur with
        heimMannschaft := some (String.mk (pyStrip t0))
        gastMannschaft := some (String.mk (pyStrip t1))
        actionLink := some l.href }
    | _ => { cur with actionLink := some l.href }

/-- C8 as stated is refuted on two concrete fragments: for a link title
with two separators, `"A - B - C"`, the away team is `"B"` — the second
piece of `title.split(' - ')` — and not `"B - C"`, the remainder after
the first separator; and for a link whose title has no separator the home
team is left unset rather than taking the fragment's visible text. -/
theorem c8_counterexample :
    ((stepFrag ([], emptyRec) ⟨["c3"], "t", some ⟨"A - B - C", "url"⟩⟩).2.gastMannschaft =
        some "B" ∧
      some "B" ≠ some ("B - C")) ∧
    ((stepFrag ([], emptyRec) ⟨["c3"], "Visible", some ⟨"NoSeparator", "url"⟩⟩).2.heimMannschaft =
        none ∧
      (none : Option String) ≠ some "Visible") := by
  decide

/-- C8 amended. The column-3 branch behaves as `col3Spec` describes: when
the fragment has a link whose title contains `" - "`, home/away are the
first and second pieces of splitting the title on every `" - "`
occurrence (each stripped) — so for a title with two separators the away
team is the middle piece, not the remainder — and the link target is
captured whenever a link is present (title well-formed or not); only when
there is no link at all does the visible text become the home team with
an empty away team. -/
theorem c8_amended (emitted : List GameRec) (cur : GameRec) (text : String)
    (link : Option LinkInfo) :
    stepFrag (emitted, cur) ⟨["c3"], text, link⟩ = (emitted, col3Spec cur text link) := by
  cases link with
  | none => rfl
  | some l =>
    show (emitted,
        { (if pyContains sepPat l.title.data then
            { cur with
              heimMannschaft :=
                some (String.mk (pyStrip ((pySplit sepPat l.title.data).getD 0 [])))
              gastMannschaft :=
                some (String.mk (pyStrip ((pySplit sepPat l.title.data).getD 1 []))) }
          else cur) with actionLink := some l.href }) =
      (emitted, col3Spec cur text (some l))
    by_cases hc : pyContains sepPat l.title.data = true
    · rw [if_pos hc]
      have hlen : 2 ≤ (pySplit sepPat l.title.data).length :=
        (pySplit_length_iff sepPat (by decide) l.title.data).mpr hc
      rcases hq : pySplit sepPat l.title.data with _ | ⟨t0, _ | ⟨t1, ts⟩⟩
      · rw [hq] at hlen
        exact absurd hlen (by simp)
      · rw [hq] at hlen
        exact absurd hlen (by simp)
      · simp [col3Spec, hq]
    · rw [if_neg hc]
      have hb : pyContains sepPat l.title.data = false := by
        cases hb2 : pyContains sepPat l.title.data with
        | false => rfl
        | true => exact absurd hb2 hc
      have hlen : ¬ 2 ≤ (pySplit sepPat l.title.data).length := by
        rw [pySplit_length_iff sepPat (by decide) l.title.data, hb]
        simp
      rcases hq : pySplit sepPat l.title.data with _ | ⟨t0, _ | ⟨t1, ts⟩⟩
      · simp [col3Spec, hq]
      · simp [col3Spec, hq]
      · rw [hq] at hlen
        exact absurd (by simp) hlen

/-! ## The aggregation claims (C4, C5) -/

theorem mem_insertBy {α : Type} (le : α → α → Bool) (a x : α) :
    ∀ l : List α, x ∈ insertBy le a l ↔ x = a ∨ x ∈ l := by
  intro l
  induction l with
  | nil => simp [insertBy]
  | cons b bs ih =>
    simp only [insertBy]
    split
    · simp [List.mem_cons]
    · simp only [List.mem_cons, ih]
      tauto

theorem mem_sortBy {α : Type} (le : α → α → Bool) (x : α) :
    ∀ l : List α, x ∈ sortBy le l ↔ x ∈ l := by
  intro l
  induction l with
  | nil => simp [sortBy]
  | cons a as ih =>
    simp only [sortBy, mem_insertBy, ih, List.mem_cons]

/-- C4. The claim is right and `scrape_two_step.py` is the slip: placing
`WHERE g.game_date BETWEEN ...` after the `LEFT JOIN` discards the
null-extended rows, so a saved player with no (in-window) games is
omitted from the minutes chart's input entirely — the chart code's own
null-to-zero rendering branch (`row[1] if row[1] else 0`) can never see a
`NULL` sum in that variant.  The clickevent variant shows the intended
behaviour: the same player appears with a sum rendered as 0.  Evaluated
at the failing input: one saved player and an empty `games` table. -/
theorem c4_left_join_where_bug :
    minutesChartInputMain [⟨1, "Player A", "U13", 2026, ""⟩] [] = [] ∧
    minutesChartInputClick [⟨1, "Player A", "U13", 2026, ""⟩] [] = [("Player A", 0)] := by
  decide

/-- C5 as stated is refuted on the clickevent variant: its goals query has
no `HAVING SUM(g.goals) > 0` filter, so a saved player with goals total 0
(here: no games at all, rendered as 0) appears in its goals chart input. -/
theorem c5_counterexample :
    goalsChartInputClick [⟨1, "Player A", "U13", 2026, ""⟩] [] = [("Player A", 0)] := by
  decide

/-- C5 amended. The exclusion holds for the goals aggregation of
`scrape_two_step.py` (with totals taken over its date window): a saved
player's name appears in that goals chart input exactly when the player's
in-window goals total is positive — players whose total is zero or less
(including players with no in-window games) are excluded.  The clickevent
variant applies no such filter and charts every saved player. -/
theorem c5_amended (players : List PlayerRow) (games : List GameRow) (p : PlayerRow)
    (hnd : (players.map (·.player_name)).Nodup) (hp : p ∈ players) :
    p.player_name ∈ (goalsChartInputMain players games).map Prod.fst ↔
      0 < sumGoals (inWindowGames games p.player_id) := by
  constructor
  · intro hmem
    rcases List.mem_map.mp hmem with ⟨pair, hpair, hfst⟩
    rw [goalsChartInputMain, mem_sortBy] at hpair
    rcases List.mem_filterMap.mp hpair with ⟨q, hq, hsome⟩
    have hqname : q.player_name = p.player_name := by
      by_cases hgs : (inWindowGames games q.player_id).isEmpty = true
      · rw [if_pos hgs] at hsome
        exact absurd hsome (by simp)
      · rw [if_neg hgs] at hsome
        by_cases hpos : (0 : Int) < sumGoals (inWindowGames games q.player_id)
        · rw [if_pos (by simpa using hpos)] at hsome
          have := Option.some.inj hsome
          rw [← this] at hfst
          exact hfst
        · rw [if_neg (by simpa using hpos)] at hsome
          exact absurd hsome (by simp)
    have hqp : q = p := List.inj_on_of_nodup_map hnd hq hp hqname
    subst hqp
    by_cases hgs : (inWindowGames games q.player_id).isEmpty = true
    · rw [if_pos hgs] at hsome
      exact absurd hsome (by simp)
    · rw [if_neg hgs] at hsome
      by_cases hpos : (0 : Int) < sumGoals (inWindowGames games q.player_id)
      · exact hpos
      · rw [if_neg (by simpa using hpos)] at hsome
        exact absurd hsome (by simp)
  · intro hpos
    have hgs : (inWindowGames games p.player_id).isEmpty = false := by
      cases hc : inWindowGames games p.player_id with
      | nil =>
        rw [hc] at hpos
        simp [sumGoals] at hpos
      | cons g gs => simp [List.isEmpty]
    have hsome : (fun q : PlayerRow =>
        if (inWindowGames games q.player_id).isEmpty then none
        else if decide (0 < sumGoals (inWindowGames games q.player_id)) then
          some (q.player_name, sumGoals (inWindowGames games q.player_id))
        else none) p = some (p.player_name, sumGoals (inWindowGames games p.player_id)) := by
      simp only
      rw [if_neg (by simp [hgs]), if_pos (by simpa using hpos)]
    refine List.mem_map.mpr ⟨(p.player_name, sumGoals (inWindowGames games p.player_id)), ?_, rfl⟩
    rw [goalsChartInputMain, mem_sortBy]
    exact List.mem_filterMap.mpr ⟨p, hp, hsome⟩

/-- Witness for C5 at a concrete dataset: player A has one in-window game
with two goals and appears in the chart input; the totals are checked by
evaluation. -/
theorem c5_amended_witness :
    (([⟨1, "A", "U13", 2026, ""⟩, ⟨2, "B", "U13", 2026, ""⟩].map
        (fun p : PlayerRow => p.player_name)).Nodup ∧
      (⟨1, "A", "U13", 2026, ""⟩ : PlayerRow) ∈
        [⟨1, "A", "U13", 2026, ""⟩, ⟨2, "B", "U13", 2026, ""⟩]) ∧
    "A" ∈ (goalsChartInputMain [⟨1, "A", "U13", 2026, ""⟩, ⟨2, "B", "U13", 2026, ""⟩]
        [⟨1, some "2025-09-01 10:00:00", "", "", 1, "", "", "", 60, 2, "", "", 123, ""⟩]).map
      Prod.fst := by
  refine ⟨⟨by decide, by decide⟩, ?_⟩
  exact (c5_amended [⟨1, "A", "U13", 2026, ""⟩, ⟨2, "B", "U13", 2026, ""⟩]
    [⟨1, some "2025-09-01 10:00:00", "", "", 1, "", "", "", 60, 2, "", "", 123, ""⟩]
    ⟨1, "A", "U13", 2026, ""⟩ (by decide) (by decide)).mpr (by decide)

end OfbScraper
